import Mathlib

/-!
Verification development for the SecureMyAI prompt-firewall core
(`src/backend/app/firewall/filters.py`, `redactor.py`, `classifier.py`,
`app/main.py`, `main_app.py`, `app/logging/logger.py`).

The Python code is shallowly embedded: each regular expression that the
code compiles is translated into an explicit abstract-syntax value `RE`,
and a small backtracking engine reproduces the semantics of the Python
`re` module for the constructs the patterns use (character classes,
greedy bounded repetition, greedy option, ordered alternation, word
boundary, case-insensitive matching, leftmost non-overlapping
`findall`/`sub`).  ASCII case folding is used, which agrees with Python
on the inputs considered here.  Capture-group projection performed by
Python's `findall` (which returns group values rather than whole
matches when a pattern has groups) is elided: the embedding records the
whole matched text; the *number* of matches — the only thing the code
ever computes from the values — is identical.
-/

namespace Firewall

/-! ### Strings as character lists, Python's `in` (substring) test -/

/-- `str.lower()` on a character list (ASCII folding). -/
def lowerList (cs : List Char) : List Char := cs.map Char.toLower

/-- Python's `needle in hay` substring test on character lists. -/
def subList (needle : List Char) : List Char → Bool
  | [] => needle.isEmpty
  | c :: t => needle.isPrefixOf (c :: t) || subList needle t

/-- Python's `needle in hay` substring test on strings. -/
def subStr (needle hay : String) : Bool := subList needle.data hay.data

/-- `str.lower()` on strings. -/
def lowerStr (s : String) : String := ⟨lowerList s.data⟩

/-- `str.upper()` on strings (ASCII folding, per character). -/
def upperStr (s : String) : String := ⟨s.data.map Char.toUpper⟩

theorem isPrefixOf_append_self (n x : List Char) : n.isPrefixOf (n ++ x) = true := by
  induction n with
  | nil => simp [List.isPrefixOf]
  | cons c t ih => simp [List.isPrefixOf, ih]

theorem subList_nil_left (h : List Char) : subList [] h = true := by
  cases h <;> simp [subList, List.isPrefixOf, List.isEmpty]

theorem subList_append (pre n suf : List Char) :
    subList n (pre ++ n ++ suf) = true := by
  induction pre with
  | nil =>
    cases n with
    | nil => simpa using subList_nil_left suf
    | cons c t => simp [subList, isPrefixOf_append_self]
  | cons c t ih =>
    have ih' : subList n (t ++ (n ++ suf)) = true := by
      simpa [List.append_assoc] using ih
    simp [subList, ih']

theorem subList_cons_of_subList (c : Char) (n t : List Char)
    (h : subList n t = true) : subList n (c :: t) = true := by
  simp [subList, h]

/-! ### Character classes appearing in the source patterns -/

/-- `\d` -/
def isDig (c : Char) : Bool := c.isDigit

/-- ASCII letter (the `A-Za-z` ranges). -/
def isAl (c : Char) : Bool := ('a' ≤ c && c ≤ 'z') || ('A' ≤ c && c ≤ 'Z')

/-- `\s` of the `re` module (ASCII part). -/
def isSp (c : Char) : Bool :=
  c == ' ' || c == '\t' || c == '\n' || c == '\x0d' || c == '\x0b' || c == '\x0c'

/-- `\S` -/
def isNonSp (c : Char) : Bool := !isSp c

/-- `\w`, the word characters deciding `\b` (ASCII part). -/
def isWordCh (c : Char) : Bool := isAl c || isDig c || c == '_'

/-- `[A-Za-z0-9._%+-]` (e-mail local part). -/
def clsLocal (c : Char) : Bool :=
  isAl c || isDig c || c == '.' || c == '_' || c == '%' || c == '+' || c == '-'

/-- `[A-Za-z0-9.-]` (e-mail domain). -/
def clsDomain (c : Char) : Bool := isAl c || isDig c || c == '.' || c == '-'

/-- `[A-Z|a-z]` (e-mail TLD; the source class literally contains `|`). -/
def clsTld (c : Char) : Bool := isAl c || c == '|'

/-- `[-.\s]` (phone / card separators). -/
def clsSep (c : Char) : Bool := c == '-' || c == '.' || isSp c

/-- The date-separator class holding slash and dash. -/
def clsSlashDash (c : Char) : Bool := c == '/' || c == '-'

/-- `[A-Za-z\s]` (street-name run). -/
def clsAlphaSp (c : Char) : Bool := isAl c || isSp c

/-- `[1-9]` -/
def cls19 (c : Char) : Bool := '1' ≤ c && c ≤ '9'

/-- `[0-2]` -/
def cls02 (c : Char) : Bool := '0' ≤ c && c ≤ '2'

/-- `[12]` -/
def cls12 (c : Char) : Bool := c == '1' || c == '2'

/-- `[01]` -/
def cls01 (c : Char) : Bool := c == '0' || c == '1'

/-! ### The regular-expression fragment used by the source -/

/-- Abstract syntax of the regex fragment the firewall compiles.
`rep p lo hi?` is greedy repetition of a one-character class (covers
`+`, `*`, `{m}`, `{m,n}`, `{m,}`); `opt` is greedy `?`; `alt` is ordered
alternation; `lit` is a literal matched case-insensitively
(`re.IGNORECASE` is passed at every compilation site in the source);
`wb` is `\b`; `grp` is a numbered capture group. -/
inductive RE where
  | eps : RE
  | cls (p : Char → Bool) : RE
  | lit (s : String) : RE
  | seq (a b : RE) : RE
  | alt (a b : RE) : RE
  | opt (a : RE) : RE
  | rep (p : Char → Bool) (lo : Nat) (hi : Option Nat) : RE
  | wb : RE
  | grp (n : Nat) (a : RE) : RE

/-- `seq` over a list. -/
def seqList : List RE → RE
  | [] => RE.eps
  | [r] => r
  | r :: rs => RE.seq r (seqList rs)

/-- Ordered alternation over a list (first alternative preferred,
as in Python). -/
def altList : List RE → RE
  | [] => RE.eps
  | [r] => r
  | r :: rs => RE.alt r (altList rs)

/-- Captures recorded during a match: group number ↦ captured text. -/
abbrev Caps := List (Nat × List Char)

/-- Case-insensitive literal step: if (folding case) `pat` is a front
segment of `cs`, return the consumed characters and the rest. -/
def litStep : List Char → List Char → Option (List Char × List Char)
  | [], cs => some ([], cs)
  | _ :: _, [] => none
  | p :: ps, c :: cs =>
      if p.toLower == c.toLower then
        match litStep ps cs with
        | some (con, rest) => some (c :: con, rest)
        | none => none
      else none

/-- Greedy longest run of class `p`, bounded by `hi`. -/
def classRun (p : Char → Bool) (hi : Option Nat) : List Char → List Char
  | [] => []
  | c :: cs =>
      match hi with
      | some 0 => []
      | some (n + 1) => if p c then c :: classRun p (some n) cs else []
      | none => if p c then c :: classRun p none cs else []

/-- Whether `\b` holds between a previous character and the next one
(`none` at either end of the subject). -/
def boundary (prev : Option Char) (next : Option Char) : Bool :=
  (match prev with | none => false | some c => isWordCh c) !=
  (match next with | none => false | some c => isWordCh c)

/-- All ways `r` can match a front segment of `right`, in Python's
backtracking priority order (first element is the match Python picks).
`prev` is the character just before the current position, for `\b`.
Each result is `(consumed, rest, captures)`. -/
def reRun : RE → Option Char → List Char → List (List Char × List Char × Caps)
  | RE.eps, _, cs => [([], cs, [])]
  | RE.cls p, _, cs =>
      match cs with
      | [] => []
      | c :: rest => if p c then [([c], rest, [])] else []
  | RE.lit s, _, cs =>
      match litStep s.data cs with
      | some (con, rest) => [(con, rest, [])]
      | none => []
  | RE.seq a b, prev, cs =>
      (reRun a prev cs).flatMap fun (ca, ra, ka) =>
        (reRun b (ca.getLast?.rec prev some) ra).map fun (cb, rb, kb) =>
          (ca ++ cb, rb, ka ++ kb)
  | RE.alt a b, prev, cs => reRun a prev cs ++ reRun b prev cs
  | RE.opt a, prev, cs => reRun a prev cs ++ [([], cs, [])]
  | RE.rep p lo hi, _, cs =>
      let run := classRun p hi cs
      if run.length < lo then []
      else
        (List.range (run.length + 1 - lo)).map fun i =>
          let k := run.length - i
          (run.take k, run.drop k ++ cs.drop run.length, [])
  | RE.wb, prev, cs => if boundary prev cs.head? then [([], cs, [])] else []
  | RE.grp n a, prev, cs =>
      (reRun a prev cs).map fun (con, rest, caps) => (con, rest, caps ++ [(n, con)])

/-- The match Python's engine returns at the current position, if any. -/
def matchHere (r : RE) (prev : Option Char) (cs : List Char) :
    Option (List Char × List Char × Caps) :=
  (reRun r prev cs).head?

/-- Scan step when the current character is not part of a match: the
character is copied to the output. -/
def keepStep (c : Char) (pr : List (List Char) × List Char) :
    List (List Char) × List Char :=
  (pr.1, c :: pr.2)

/-- Scan step at a match `m`: the match is recorded and its replacement
`rep` emitted to the output. -/
def matchStep (m rep : List Char) (pr : List (List Char) × List Char) :
    List (List Char) × List Char :=
  (m :: pr.1, rep ++ pr.2)

/-- One left-to-right scan computing, simultaneously, the list of
(non-overlapping, leftmost) full match texts — `re.findall` — and the
text with each match replaced by `f caps` — `re.sub`.  The source
patterns cannot match the empty string; an empty match is conservatively
treated as no match (a deviation that is unreachable here). -/
def scanAux (r : RE) (f : Caps → List Char) :
    Nat → Option Char → List Char → List (List Char) × List Char
  | 0, _, cs => ([], cs)
  | _ + 1, _, [] => ([], [])
  | fuel + 1, prev, c :: rest =>
      match matchHere r prev (c :: rest) with
      | some (m, after, caps) =>
          if m.isEmpty then keepStep c (scanAux r f fuel (some c) rest)
          else matchStep m (f caps) (scanAux r f fuel (some m.getLast!) after)
      | none => keepStep c (scanAux r f fuel (some c) rest)

/-- `re.findall(r, s, re.IGNORECASE)` (whole-match texts). -/
def reFindAll (r : RE) (s : String) : List String :=
  ((scanAux r (fun _ => []) (s.data.length + 1) none s.data).1).map fun m => ⟨m⟩

/-- `re.sub(r, repl, s, flags=re.IGNORECASE)` with a constant
replacement string. -/
def reSubst (r : RE) (repl : String) (s : String) : String :=
  ⟨(scanAux r (fun _ => repl.data) (s.data.length + 1) none s.data).2⟩

/-- `pattern.sub(replacer, s)` with a replacement function of the match
captures. -/
def reSubstF (r : RE) (f : Caps → List Char) (s : String) : String :=
  ⟨(scanAux r f (s.data.length + 1) none s.data).2⟩

/-! ### The seven PII detectors (shared text of `filters.py` lines 7-15
and `redactor.py` lines 7-15) -/

/-- `\d` repeated exactly `n` times. -/
def dRep (n : Nat) : RE := RE.rep isDig n (some n)

/-- The e-mail detector regex. -/
def emailRE : RE :=
  seqList [RE.wb, RE.rep clsLocal 1 none, RE.lit "@", RE.rep clsDomain 1 none,
    RE.lit ".", RE.rep clsTld 2 none, RE.wb]

/-- The phone detector regex.  The country-code capture group of the
source pattern is not numbered here: the code never reads it, and the
number of matches is unaffected. -/
def phoneRE : RE :=
  seqList [RE.wb,
    RE.opt (seqList [RE.lit "+", RE.rep isDig 1 (some 3), RE.opt (RE.cls clsSep)]),
    RE.opt (RE.lit "("), dRep 3, RE.opt (RE.lit ")"), RE.opt (RE.cls clsSep),
    dRep 3, RE.opt (RE.cls clsSep), dRep 4, RE.wb]

/-- The SSN detector regex. -/
def ssnRE : RE :=
  seqList [RE.wb, dRep 3, RE.lit "-", dRep 2, RE.lit "-", dRep 4, RE.wb]

/-- The credit-card detector regex. -/
def creditCardRE : RE :=
  seqList [RE.wb, dRep 4, RE.opt (RE.cls clsSep), dRep 4, RE.opt (RE.cls clsSep),
    dRep 4, RE.opt (RE.cls clsSep), dRep 4, RE.wb]

/-- The IP-address detector regex. -/
def ipAddressRE : RE :=
  seqList [RE.wb, RE.rep isDig 1 (some 3), RE.lit ".", RE.rep isDig 1 (some 3),
    RE.lit ".", RE.rep isDig 1 (some 3), RE.lit ".", RE.rep isDig 1 (some 3), RE.wb]

/-- The date-of-birth detector regex (month and day groups of the
source are unnumbered: unread by the code, match count unaffected). -/
def dateOfBirthRE : RE :=
  seqList [RE.wb,
    RE.alt (RE.seq (RE.opt (RE.lit "0")) (RE.cls cls19))
           (RE.seq (RE.lit "1") (RE.cls cls02)),
    RE.cls clsSlashDash,
    altList [RE.seq (RE.opt (RE.lit "0")) (RE.cls cls19),
             RE.seq (RE.cls cls12) (RE.cls isDig),
             RE.seq (RE.lit "3") (RE.cls cls01)],
    RE.cls clsSlashDash, dRep 4, RE.wb]

/-- The street-address detector regex. -/
def addressRE : RE :=
  seqList [RE.wb, RE.rep isDig 1 none, RE.rep isSp 1 none, RE.rep clsAlphaSp 1 none,
    altList ((["Street", "St", "Avenue", "Ave", "Road", "Rd", "Boulevard", "Blvd",
               "Lane", "Ln", "Drive", "Dr"]).map RE.lit),
    RE.wb]

namespace PromptFilter

/-- `PromptFilter.patterns` of `filters.py` (insertion-ordered dict). -/
def patterns : List (String × RE) :=
  [("email", emailRE), ("phone", phoneRE), ("ssn", ssnRE),
   ("credit_card", creditCardRE), ("ip_address", ipAddressRE),
   ("date_of_birth", dateOfBirthRE), ("address", addressRE)]

/-- `PromptFilter.high_risk_keywords` of `filters.py`. -/
def high_risk_keywords : List String :=
  ["password", "secret", "api_key", "token", "private_key", "ssh_key",
   "database_password", "admin_password", "root_password", "master_key",
   "encryption_key", "decryption_key", "access_token", "refresh_token",
   "social_security", "ssn", "credit_card", "cvv", "pin", "passport",
   "driver_license", "bank_account", "routing_number", "swift_code"]

/-- `PromptFilter.medium_risk_keywords` of `filters.py`. -/
def medium_risk_keywords : List String :=
  ["personal", "private", "confidential", "sensitive", "internal",
   "proprietary", "classified", "restricted", "secure", "protected"]

/-- Loop body of `PromptFilter.detect_pii`: keep, per detector in dict
order, the non-empty `re.findall` results. -/
def detectAux (text : String) : List (String × RE) → List (String × List String)
  | [] => []
  | (name, r) :: ps =>
      let found := reFindAll r text
      if found.isEmpty then detectAux text ps
      else (name, found) :: detectAux text ps

/-- `PromptFilter.detect_pii` of `filters.py`. -/
def detect_pii (text : String) : List (String × List String) :=
  detectAux text patterns

/-- `PromptFilter.check_keywords` of `filters.py`: returns the high-
and medium-risk keywords that are substrings of the lowercased text. -/
def check_keywords (text : String) : List String × List String :=
  let textLower := lowerStr text
  (high_risk_keywords.filter fun k => subStr k textLower,
   medium_risk_keywords.filter fun k => subStr k textLower)

/-- The dictionary returned by `PromptFilter.analyze_prompt`. -/
structure Analysis where
  risk_level : String
  pii_detected : List (String × List String)
  keywords_high : List String
  keywords_medium : List String
  should_block : Bool
  total_pii_count : Nat
  high_risk_keywords_count : Nat
  medium_risk_keywords_count : Nat
  deriving Repr, DecidableEq

/-- `PromptFilter.analyze_prompt` of `filters.py` lines 74-105. -/
def analyze_prompt (prompt : String) : Analysis :=
  let pii := detect_pii prompt
  let kw := check_keywords prompt
  let risk :=
    if pii.any (fun e => e.1 == "ssn") || pii.any (fun e => e.1 == "credit_card") then
      "high"
    else if !pii.isEmpty || !kw.1.isEmpty || !kw.2.isEmpty then
      "medium"
    else "low"
  { risk_level := risk
    pii_detected := pii
    keywords_high := kw.1
    keywords_medium := kw.2
    should_block := risk == "high"
    total_pii_count := (pii.map fun e => e.2.length).sum
    high_risk_keywords_count := kw.1.length
    medium_risk_keywords_count := kw.2.length }

/-- `PromptFilter.should_block_prompt` of `filters.py` lines 107-131. -/
def should_block_prompt (prompt : String) : Bool × String :=
  let analysis := analyze_prompt prompt
  if analysis.should_block then
    let reasons :=
      (if !analysis.pii_detected.isEmpty then
        ["Detected PII: " ++
          String.intercalate ", " (analysis.pii_detected.map fun e => e.1)]
       else []) ++
      (if !analysis.keywords_high.isEmpty then
        ["High-risk keywords: " ++ String.intercalate ", " analysis.keywords_high]
       else [])
    (true, String.intercalate "; " reasons)
  else
    (false, "No high-risk content detected")

end PromptFilter

/-- `classify_risk` of `classifier.py`. -/
def classify_risk (prompt : String) : String :=
  (PromptFilter.analyze_prompt prompt).risk_level

namespace PromptRedactor

/-- `PromptRedactor.redaction_patterns` of `redactor.py` ("these should
match the patterns in filters.py" — and they do, textually). -/
def redaction_patterns : List (String × RE) :=
  [("email", emailRE), ("phone", phoneRE), ("ssn", ssnRE),
   ("credit_card", creditCardRE), ("ip_address", ipAddressRE),
   ("date_of_birth", dateOfBirthRE), ("address", addressRE)]

/-- `PromptRedactor.redact_keywords_list` of `redactor.py`. -/
def redact_keywords_list : List String :=
  ["password", "secret", "api_key", "token", "private_key", "ssh_key",
   "database_password", "admin_password", "root_password", "master_key",
   "encryption_key", "decryption_key", "access_token", "refresh_token",
   "social_security", "ssn", "credit_card", "cvv", "pin", "passport",
   "driver_license", "bank_account", "routing_number", "swift_code"]

/-- The `[REDACTED_<NAME>]` placeholder for detector `name`. -/
def markerOf (name : String) : String := "[REDACTED_" ++ upperStr name ++ "]"

/-- Loop body of `PromptRedactor.redact_pii` lines 26-40: `findall` runs
on the *original* `text`, each `sub` runs on the accumulated
`redacted_text`. -/
def piiAux (text : String) : List (String × RE) → String →
    List (String × List String) → String × List (String × List String)
  | [], rt, mp => (rt, mp)
  | (name, r) :: ps, rt, mp =>
      let found := reFindAll r text
      if found.isEmpty then piiAux text ps rt mp
      else piiAux text ps (reSubst r (markerOf name) rt) (mp ++ [(name, found)])

/-- `PromptRedactor.redact_pii` of `redactor.py`. -/
def redact_pii (text : String) : String × List (String × List String) :=
  piiAux text redaction_patterns text []

/-- The "already redacted" guard of `redact_keywords` (Python's `in`,
case-sensitive substring). -/
def kwGuard (t : String) : Bool :=
  subStr "[REDACTED_KEYWORD]" t || subStr "[REDACTED_SECRET]" t

/-- Loop body of `PromptRedactor.redact_keywords` lines 42-58:
`text_lower` is computed once from the input text; the guard is
re-evaluated on the accumulated `redacted_text` at every keyword;
`re.escape` of these keywords is the identity, so the compiled pattern
is the case-insensitive literal. -/
def kwLoop (textLower : String) : List String → String → List String →
    String × List String
  | [], rt, acc => (rt, acc)
  | k :: ks, rt, acc =>
      if kwGuard rt then kwLoop textLower ks rt acc
      else if subStr k textLower then
        kwLoop textLower ks (reSubst (RE.lit k) "[REDACTED_KEYWORD]" rt) (acc ++ [k])
      else kwLoop textLower ks rt acc

/-- `PromptRedactor.redact_keywords` of `redactor.py`. -/
def redact_keywords (text : String) : String × List String :=
  kwLoop (lowerStr text) redact_keywords_list text []

/-- The assignment pattern of `redact_secret_assignments` lines 60-70:
word-bounded alternation of the keyword list, optional whitespace,
optional separator, the following non-whitespace token.  Groups 1 and 3
of the source pattern are unread by the replacer and unnumbered here;
group 2 (the separator) is kept. -/
def secretRE : RE :=
  seqList [RE.wb, altList (redact_keywords_list.map RE.lit), RE.wb,
    RE.rep isSp 0 none,
    RE.opt (RE.grp 2 (altList [RE.lit "=", RE.lit ":", RE.lit "is"])),
    RE.rep isSp 0 none, RE.rep isNonSp 1 none]

/-- The `replacer` closure of `redact_secret_assignments`. -/
def secretReplacer (caps : Caps) : List Char :=
  ("[REDACTED_KEYWORD] ").data ++ ((caps.lookup 2).getD []) ++
    (" [REDACTED_SECRET]").data

/-- `PromptRedactor.redact_secret_assignments` of `redactor.py`. -/
def redact_secret_assignments (text : String) : String :=
  reSubstF secretRE secretReplacer text

/-- The dictionary returned by `PromptRedactor.redact_prompt`. -/
structure RedactionResult where
  original_prompt : String
  redacted_prompt : String
  pii_redactions : List (String × List String)
  keyword_redactions : List String
  total_redactions : Nat
  was_redacted : Bool
  deriving Repr, DecidableEq

/-- `PromptRedactor.redact_prompt` of `redactor.py` lines 72-92: PII
pass, then secret-assignment pass, then bare-keyword pass; the count
sums PII matches and bare-keyword replacements only. -/
def redact_prompt (prompt : String) : RedactionResult :=
  let p1 := redact_pii prompt
  let t2 := redact_secret_assignments p1.1
  let p3 := redact_keywords t2
  let total := (p1.2.map fun e => e.2.length).sum + p3.2.length
  { original_prompt := prompt
    redacted_prompt := p3.1
    pii_redactions := p1.2
    keyword_redactions := p3.2
    total_redactions := total
    was_redacted := decide (0 < total) }

end PromptRedactor

/-! ### The two request handlers and the audit logger -/

/-- `check_prompt` of `app/main.py` lines 27-41, parameterised by the
two provider capabilities.  The handler classifies the prompt and then
calls the chosen provider **on the original prompt**; an invalid
provider choice raises `HTTPException` (here `none`). -/
def check_prompt (callGroq callGemini : String → String)
    (prompt llm : String) : Option (String × String) :=
  let risk := classify_risk prompt
  if llm == "groq" then some (risk, callGroq prompt)
  else if llm == "gemini" then some (risk, callGemini prompt)
  else none

/-- The per-request decision flow of the dashboard handler in
`main_app.py` lines 329-346, parameterised by the provider capability.
Returns the model-response field together with the text that was sent
to a model (`none` when the prompt was blocked). -/
def mainAppDecision (callModel : String → String) (prompt : String) :
    String × Option String :=
  let analysis := PromptFilter.analyze_prompt prompt
  let sb := PromptFilter.should_block_prompt prompt
  if sb.1 then
    ("🚫 **PROMPT BLOCKED**\n\n**Reason:** " ++ sb.2 ++
      "\n\nThis prompt contains sensitive information and has been blocked for security reasons.",
     none)
  else
    let promptToSend :=
      if analysis.risk_level == "medium" then
        (PromptRedactor.redact_prompt prompt).redacted_prompt
      else prompt
    (callModel promptToSend, some promptToSend)

/-- File-system model for `PromptLogger._log_to_json` of `logger.py`
lines 138-157: the stored JSON log entries plus a flag saying whether
file operations on the log raise (for example an unwritable log
directory or a full disk). -/
structure JsonStore where
  contents : List String
  failing : Bool
  deriving Repr, DecidableEq

/-- `PromptLogger._log_to_json`: the whole read-append-write body is
wrapped in `try: ... except Exception as e: print(...)`.  When a file
operation raises, the exception is caught and printed and the method
falls through to a normal return, so the caller always observes a
successful (exception-free) return — modelled as `Except.ok ()` in both
branches. -/
def logToJson (st : JsonStore) (entry : String) : JsonStore × Except String Unit :=
  if st.failing then (st, Except.ok ())
  else ({ st with contents := st.contents ++ [entry] }, Except.ok ())

/-! ### Engine lemmas -/

/-- The recorded match list of a scan does not depend on the
replacement function. -/
theorem scanAux_fst_indep (r : RE) (f g : Caps → List Char) :
    ∀ (fuel : Nat) (prev : Option Char) (cs : List Char),
      (scanAux r f fuel prev cs).1 = (scanAux r g fuel prev cs).1 := by
  intro fuel
  induction fuel with
  | zero => intro prev cs; rfl
  | succ n ih =>
    intro prev cs
    cases cs with
    | nil => rfl
    | cons c rest =>
      rw [scanAux, scanAux]
      cases hm : matchHere r prev (c :: rest) with
      | none => simp [keepStep, ih]
      | some t =>
        obtain ⟨m, after, caps⟩ := t
        by_cases hme : m.isEmpty <;> simp [hme, keepStep, matchStep, ih]

/-- If a scan with a constant replacement records at least one match,
the replacement text occurs in the scan output. -/
theorem scanAux_subst_marker (r : RE) (repl : List Char) :
    ∀ (fuel : Nat) (prev : Option Char) (cs : List Char),
      (scanAux r (fun _ => repl) fuel prev cs).1 ≠ [] →
      subList repl (scanAux r (fun _ => repl) fuel prev cs).2 = true := by
  intro fuel
  induction fuel with
  | zero => intro prev cs h; simp [scanAux] at h
  | succ n ih =>
    intro prev cs h
    cases cs with
    | nil => simp [scanAux] at h
    | cons c rest =>
      rw [scanAux] at h ⊢
      cases hm : matchHere r prev (c :: rest) with
      | none =>
        rw [hm] at h
        exact subList_cons_of_subList c repl _ (ih (some c) rest h)
      | some t =>
        obtain ⟨m, after, caps⟩ := t
        rw [hm] at h
        by_cases hme : m.isEmpty
        · simp only [hme, if_true, keepStep] at h ⊢
          exact subList_cons_of_subList c repl _ (ih (some c) rest h)
        · simp only [hme, Bool.false_eq_true, if_false, matchStep] at h ⊢
          simpa using subList_append [] repl _


/-- `litStep` succeeds whenever the (lower-case) literal is a front
segment of the case-folded subject. -/
theorem litStep_of_isPrefixOf :
    ∀ (ks cs : List Char), (∀ c ∈ ks, c.toLower = c) →
      ks.isPrefixOf (lowerList cs) = true →
      ∃ con rest, litStep ks cs = some (con, rest) ∧ con.length = ks.length := by
  intro ks
  induction ks with
  | nil => intro cs _ _; exact ⟨[], cs, rfl, rfl⟩
  | cons p ps ih =>
    intro cs hlow hpre
    cases cs with
    | nil => simp [lowerList, List.isPrefixOf] at hpre
    | cons c rest =>
      simp only [lowerList, List.map, List.isPrefixOf, Bool.and_eq_true,
        beq_iff_eq] at hpre
      obtain ⟨hpc, hps⟩ := hpre
      have hplow : p.toLower = p := hlow p (by simp)
      obtain ⟨con, r', hstep, hlen⟩ :=
        ih rest (fun x hx => hlow x (by simp [hx])) (by simpa [lowerList] using hps)
      refine ⟨c :: con, r', ?_, by simp [hlen]⟩
      have hcond : (p.toLower == c.toLower) = true := by
        rw [hplow, hpc]; simp
      simp [litStep, hcond, hstep]

/-- A scan with a non-empty, lower-case literal pattern records at
least one match whenever the literal occurs in the case-folded
subject. -/
theorem scanAux_lit_finds (k : String) (f : Caps → List Char)
    (hlow : ∀ c ∈ k.data, c.toLower = c) (hne : k.data ≠ []) :
    ∀ (fuel : Nat) (prev : Option Char) (cs : List Char),
      subList k.data (lowerList cs) = true → cs.length < fuel →
      (scanAux (RE.lit k) f fuel prev cs).1 ≠ [] := by
  intro fuel
  induction fuel with
  | zero => intro prev cs _ hlt; omega
  | succ n ih =>
    intro prev cs hsub hlt
    cases cs with
    | nil =>
      simp [lowerList, subList, List.isEmpty_iff] at hsub
      exact absurd hsub hne
    | cons c rest =>
      have hunf : subList k.data (lowerList (c :: rest)) =
          (k.data.isPrefixOf (lowerList (c :: rest)) ||
            subList k.data (lowerList rest)) := by
        simp [lowerList, subList]
      rw [hunf] at hsub
      rw [scanAux]
      rcases Bool.or_eq_true_iff.mp hsub with hpre | htail
      · obtain ⟨con, r', hstep, hlen⟩ := litStep_of_isPrefixOf k.data (c :: rest) hlow hpre
        have hmh : matchHere (RE.lit k) prev (c :: rest) = some (con, r', []) := by
          simp [matchHere, reRun, hstep]
        rw [hmh]
        have hcne : con.isEmpty = false := by
          cases con with
          | nil =>
            have h0 : k.data.length = 0 := hlen.symm
            exact absurd (List.length_eq_zero.mp h0) hne
          | cons a b => rfl
        simp [hcne, matchStep]
      · cases hm : matchHere (RE.lit k) prev (c :: rest) with
        | none =>
          simp only [keepStep]
          exact ih (some c) rest htail (by simpa using Nat.lt_of_succ_lt_succ hlt)
        | some t =>
          obtain ⟨m, after, caps⟩ := t
          by_cases hme : m.isEmpty
          · simp only [hme, if_true, keepStep]
            exact ih (some c) rest htail (by simpa using Nat.lt_of_succ_lt_succ hlt)
          · simp [hme, matchStep]

/-- Filtering is empty exactly when no element satisfies the test. -/
theorem filter_isEmpty_eq_not_any (l : List String) (f : String → Bool) :
    (l.filter f).isEmpty = !(l.any f) := by
  induction l with
  | nil => rfl
  | cons a t ih => by_cases h : f a <;> simp [List.filter_cons, h, ih]

/-! ### Bare-keyword pass lemmas -/

/-- Every keyword in the redaction list is a non-empty, lower-case
literal (so `re.escape` is the identity and case-folding fixes it). -/
theorem kwlist_ok : ∀ k ∈ PromptRedactor.redact_keywords_list,
    (∀ c ∈ k.data, c.toLower = c) ∧ k.data ≠ [] := by decide

/-- Substituting a lower-case literal that occurs (case-insensitively)
in the text leaves the `[REDACTED_KEYWORD]` marker in the output, so
the "already redacted" guard holds afterwards. -/
theorem reSubst_lit_guard (k t : String)
    (hlow : ∀ c ∈ k.data, c.toLower = c) (hne : k.data ≠ [])
    (hocc : subStr k (lowerStr t) = true) :
    PromptRedactor.kwGuard (reSubst (RE.lit k) "[REDACTED_KEYWORD]" t) = true := by
  have hfind : (scanAux (RE.lit k) (fun _ => ("[REDACTED_KEYWORD]").data)
      (t.data.length + 1) none t.data).1 ≠ [] := by
    apply scanAux_lit_finds k _ hlow hne _ none t.data ?_ (by omega)
    simpa [subStr, lowerStr] using hocc
  have hmark := scanAux_subst_marker (RE.lit k) ("[REDACTED_KEYWORD]").data
    (t.data.length + 1) none t.data hfind
  have hsub : subStr "[REDACTED_KEYWORD]" (reSubst (RE.lit k) "[REDACTED_KEYWORD]" t) = true :=
    hmark
  simp [PromptRedactor.kwGuard, hsub]

/-- Once the guard holds, the keyword loop is the identity. -/
theorem kwLoop_guard (tL : String) :
    ∀ (ks : List String) (rt : String) (acc : List String),
      PromptRedactor.kwGuard rt = true →
      PromptRedactor.kwLoop tL ks rt acc = (rt, acc) := by
  intro ks
  induction ks with
  | nil => intro rt acc _; rfl
  | cons k ks ih =>
    intro rt acc hg
    rw [PromptRedactor.kwLoop, if_pos hg]
    exact ih rt acc hg

/-- If no listed keyword occurs in the precomputed lower-cased text the
loop is the identity. -/
theorem kwLoop_skipAll (tL : String) :
    ∀ (ks : List String) (t : String) (acc : List String),
      (∀ k ∈ ks, subStr k tL = false) →
      PromptRedactor.kwLoop tL ks t acc = (t, acc) := by
  intro ks
  induction ks with
  | nil => intro t acc _; rfl
  | cons k ks ih =>
    intro t acc hno
    rw [PromptRedactor.kwLoop]
    by_cases hg : PromptRedactor.kwGuard t = true
    · rw [if_pos hg]; exact ih t acc fun x hx => hno x (by simp [hx])
    · rw [if_neg hg]
      have hk : subStr k tL = false := hno k (by simp)
      rw [if_neg (by simp [hk])]
      exact ih t acc fun x hx => hno x (by simp [hx])

/-- The keyword loop starting at the text whose lower-casing feeds the
occurrence test performs at most one replacement. -/
theorem kwLoop_len (t : String) :
    ∀ (ks : List String),
      (∀ k ∈ ks, (∀ c ∈ k.data, c.toLower = c) ∧ k.data ≠ []) →
      ∀ (acc : List String),
        (PromptRedactor.kwLoop (lowerStr t) ks t acc).2.length ≤ acc.length + 1 := by
  intro ks
  induction ks with
  | nil => intro _ acc; simp [PromptRedactor.kwLoop]
  | cons k ks ih =>
    intro hok acc
    rw [PromptRedactor.kwLoop]
    by_cases hg : PromptRedactor.kwGuard t = true
    · rw [if_pos hg, kwLoop_guard _ ks t acc hg]; simp
    · rw [if_neg hg]
      by_cases hs : subStr k (lowerStr t) = true
      · rw [if_pos hs]
        have hgd := reSubst_lit_guard k t (hok k (by simp)).1 (hok k (by simp)).2 hs
        rw [kwLoop_guard _ ks _ _ hgd]
        simp
      · rw [if_neg hs]
        exact ih (fun x hx => hok x (by simp [hx])) acc

/-- If the keyword loop finished without any marker in its output text,
it changed nothing and no listed keyword occurred in the text. -/
theorem kwLoop_noguard (t : String) :
    ∀ (ks : List String),
      (∀ k ∈ ks, (∀ c ∈ k.data, c.toLower = c) ∧ k.data ≠ []) →
      ∀ (acc : List String),
        PromptRedactor.kwGuard (PromptRedactor.kwLoop (lowerStr t) ks t acc).1 = false →
        PromptRedactor.kwLoop (lowerStr t) ks t acc = (t, acc) ∧
          ∀ k ∈ ks, subStr k (lowerStr t) = false := by
  intro ks
  induction ks with
  | nil => intro _ acc _; exact ⟨rfl, by simp⟩
  | cons k ks ih =>
    intro hok acc hng
    by_cases hg : PromptRedactor.kwGuard t = true
    · have heq : PromptRedactor.kwLoop (lowerStr t) (k :: ks) t acc = (t, acc) := by
        rw [PromptRedactor.kwLoop, if_pos hg]
        exact kwLoop_guard _ ks t acc hg
      rw [heq] at hng
      exact absurd (hg.symm.trans hng) (by simp)
    · by_cases hs : subStr k (lowerStr t) = true
      · have hgd := reSubst_lit_guard k t (hok k (by simp)).1 (hok k (by simp)).2 hs
        have heq : PromptRedactor.kwLoop (lowerStr t) (k :: ks) t acc =
            (reSubst (RE.lit k) "[REDACTED_KEYWORD]" t, acc ++ [k]) := by
          rw [PromptRedactor.kwLoop, if_neg hg, if_pos hs]
          exact kwLoop_guard _ ks _ _ hgd
        rw [heq] at hng
        exact absurd (hgd.symm.trans hng) (by simp)
      · have heq : PromptRedactor.kwLoop (lowerStr t) (k :: ks) t acc =
            PromptRedactor.kwLoop (lowerStr t) ks t acc := by
          rw [PromptRedactor.kwLoop, if_neg hg, if_neg hs]
        rw [heq] at hng
        obtain ⟨h1, h2⟩ := ih (fun x hx => hok x (by simp [hx])) acc hng
        refine ⟨heq.trans h1, ?_⟩
        intro x hx
        rcases List.mem_cons.mp hx with hx | hx
        · subst hx; exact Bool.not_eq_true _ ▸ (by simpa using hs)
        · exact h2 x hx

/-- The recorded-keyword accumulator never shrinks. -/
theorem kwLoop_len_mono (tL : String) :
    ∀ (ks : List String) (t : String) (acc : List String),
      acc.length ≤ (PromptRedactor.kwLoop tL ks t acc).2.length := by
  intro ks
  induction ks with
  | nil => intro t acc; simp [PromptRedactor.kwLoop]
  | cons k ks ih =>
    intro t acc
    rw [PromptRedactor.kwLoop]
    by_cases hg : PromptRedactor.kwGuard t = true
    · rw [if_pos hg]; exact ih t acc
    · rw [if_neg hg]
      by_cases hs : subStr k tL = true
      · rw [if_pos hs]
        calc acc.length ≤ (acc ++ [k]).length := by simp
          _ ≤ _ := ih _ _
      · rw [if_neg hs]; exact ih t acc

/-- If the keyword loop recorded nothing, it changed nothing. -/
theorem kwLoop_acc_fixed (tL : String) :
    ∀ (ks : List String) (t : String) (acc : List String),
      (PromptRedactor.kwLoop tL ks t acc).2 = acc →
      (PromptRedactor.kwLoop tL ks t acc).1 = t := by
  intro ks
  induction ks with
  | nil => intro t acc _; rfl
  | cons k ks ih =>
    intro t acc hacc
    rw [PromptRedactor.kwLoop] at hacc ⊢
    by_cases hg : PromptRedactor.kwGuard t = true
    · rw [if_pos hg] at hacc ⊢; exact ih t acc hacc
    · rw [if_neg hg] at hacc ⊢
      by_cases hs : subStr k tL = true
      · rw [if_pos hs] at hacc
        have hmono := kwLoop_len_mono tL ks (reSubst (RE.lit k) "[REDACTED_KEYWORD]" t) (acc ++ [k])
        rw [hacc] at hmono
        simp at hmono
      · rw [if_neg hs] at hacc ⊢; exact ih t acc hacc

/-! ### PII pass lemmas -/

/-- The mapping built by the PII loop has exactly the keys of
`detect_pii`'s loop, after the incoming accumulator, in order — both
loops test non-emptiness of the same `findall` on the original text. -/
theorem piiAux_keys (text : String) :
    ∀ (ps : List (String × RE)) (rt : String) (mp : List (String × List String)),
      ((PromptRedactor.piiAux text ps rt mp).2).map Prod.fst =
        mp.map Prod.fst ++ (PromptFilter.detectAux text ps).map Prod.fst := by
  intro ps
  induction ps with
  | nil => intro rt mp; simp [PromptRedactor.piiAux, PromptFilter.detectAux]
  | cons pr ps ih =>
    obtain ⟨name, r⟩ := pr
    intro rt mp
    by_cases hf : (reFindAll r text).isEmpty
    · simp only [PromptRedactor.piiAux, PromptFilter.detectAux, hf, if_true]
      exact ih rt mp
    · simp only [PromptRedactor.piiAux, PromptFilter.detectAux, hf,
        Bool.false_eq_true, if_false]
      rw [ih]
      simp

/-- The PII loop only appends to its accumulator. -/
theorem piiAux_ext (text : String) :
    ∀ (ps : List (String × RE)) (rt : String) (mp : List (String × List String)),
      ∃ ext, (PromptRedactor.piiAux text ps rt mp).2 = mp ++ ext := by
  intro ps
  induction ps with
  | nil => intro rt mp; exact ⟨[], by simp [PromptRedactor.piiAux]⟩
  | cons pr ps ih =>
    obtain ⟨name, r⟩ := pr
    intro rt mp
    by_cases hf : (reFindAll r text).isEmpty
    · simp only [PromptRedactor.piiAux, hf, if_true]
      exact ih rt mp
    · simp only [PromptRedactor.piiAux, hf, Bool.false_eq_true, if_false]
      obtain ⟨ext, hext⟩ := ih (reSubst r (PromptRedactor.markerOf name) rt)
        (mp ++ [(name, reFindAll r text)])
      exact ⟨(name, reFindAll r text) :: ext, by simp [hext]⟩

/-- If the PII loop recorded nothing beyond its accumulator, it left
the text unchanged. -/
theorem piiAux_acc_fixed (text : String) :
    ∀ (ps : List (String × RE)) (rt : String) (mp : List (String × List String)),
      (PromptRedactor.piiAux text ps rt mp).2 = mp →
      (PromptRedactor.piiAux text ps rt mp).1 = rt := by
  intro ps
  induction ps with
  | nil => intro rt mp _; rfl
  | cons pr ps ih =>
    obtain ⟨name, r⟩ := pr
    intro rt mp hacc
    by_cases hf : (reFindAll r text).isEmpty
    · simp only [PromptRedactor.piiAux, hf, if_true] at hacc ⊢
      exact ih rt mp hacc
    · simp only [PromptRedactor.piiAux, hf, Bool.false_eq_true, if_false] at hacc ⊢
      obtain ⟨ext, hext⟩ := piiAux_ext text ps (reSubst r (PromptRedactor.markerOf name) rt)
        (mp ++ [(name, reFindAll r text)])
      rw [hext] at hacc
      have := congrArg List.length hacc
      simp at this

/-- Every entry of the built mapping beyond the accumulator has a
non-empty match list. -/
theorem piiAux_entries (text : String) :
    ∀ (ps : List (String × RE)) (rt : String) (mp : List (String × List String))
      (e : String × List String),
      e ∈ (PromptRedactor.piiAux text ps rt mp).2 → e ∈ mp ∨ e.2 ≠ [] := by
  intro ps
  induction ps with
  | nil => intro rt mp e he; exact Or.inl (by simpa [PromptRedactor.piiAux] using he)
  | cons pr ps ih =>
    obtain ⟨name, r⟩ := pr
    intro rt mp e he
    by_cases hf : (reFindAll r text).isEmpty
    · simp only [PromptRedactor.piiAux, hf, if_true] at he
      exact ih rt mp e he
    · simp only [PromptRedactor.piiAux, hf, Bool.false_eq_true, if_false] at he
      rcases ih _ _ e he with hin | hne
      · rcases List.mem_append.mp hin with hin | hin
        · exact Or.inl hin
        · refine Or.inr ?_
          have : e = (name, reFindAll r text) := by simpa using hin
          rw [this]
          simpa [List.isEmpty_iff] using hf
      · exact Or.inr hne

/-- When the PII loop starts on the very text the `findall`s inspect
and exactly one detector fires, the output text carries that detector's
marker: the loop leaves the text untouched up to the firing detector,
whose substitution plants the marker, and all later detectors are
skipped. -/
theorem piiAux_single_marker (p n : String) :
    ∀ (ps : List (String × RE)),
      ((PromptRedactor.piiAux p ps p []).2).map Prod.fst = [n] →
      subList (PromptRedactor.markerOf n).data
        ((PromptRedactor.piiAux p ps p []).1).data = true := by
  intro ps
  induction ps with
  | nil => intro h; simp [PromptRedactor.piiAux] at h
  | cons pr ps ih =>
    obtain ⟨name, r⟩ := pr
    intro h
    by_cases hf : (reFindAll r p).isEmpty
    · have heq : PromptRedactor.piiAux p ((name, r) :: ps) p [] =
          PromptRedactor.piiAux p ps p [] := by
        simp [PromptRedactor.piiAux, hf]
      rw [heq] at h ⊢
      exact ih h
    · have heq : PromptRedactor.piiAux p ((name, r) :: ps) p [] =
          PromptRedactor.piiAux p ps (reSubst r (PromptRedactor.markerOf name) p)
            [(name, reFindAll r p)] := by
        simp [PromptRedactor.piiAux, hf]
      rw [heq] at h ⊢
      obtain ⟨ext, hext⟩ := piiAux_ext p ps (reSubst r (PromptRedactor.markerOf name) p)
        [(name, reFindAll r p)]
      rw [hext] at h
      simp at h
      obtain ⟨hn, hext0⟩ := h
      have hfix : (PromptRedactor.piiAux p ps
          (reSubst r (PromptRedactor.markerOf name) p) [(name, reFindAll r p)]).1 =
          reSubst r (PromptRedactor.markerOf name) p := by
        apply piiAux_acc_fixed
        rw [hext, hext0, List.append_nil]
      rw [hfix, hn]
      have hf1 : (scanAux r (fun _ => (PromptRedactor.markerOf n).data)
          (p.data.length + 1) none p.data).1 ≠ [] := by
        rw [scanAux_fst_indep r _ (fun _ => [])]
        intro h0
        apply hf
        have h0' : (scanAux r (fun _ => []) (p.data.length + 1) none p.data).1 = [] := h0
        unfold reFindAll
        rw [h0']
        rfl
      exact scanAux_subst_marker r (PromptRedactor.markerOf n).data _ none p.data hf1

/-! ### Claim theorems -/

/-- C1: for every prompt `p`, `analyze(p).riskLevel` is computed by the
three-case rule — `high` if the PII findings contain detector `ssn` or
`credit_card`; otherwise `medium` if the PII findings are non-empty or
any high-risk or medium-risk keyword is a substring of the lowercased
prompt; otherwise `low`. -/
theorem C1_risk_level_rule (p : String) :
    (PromptFilter.analyze_prompt p).risk_level =
      if (PromptFilter.detect_pii p).any (fun e => e.1 == "ssn")
          || (PromptFilter.detect_pii p).any (fun e => e.1 == "credit_card") then "high"
      else if !(PromptFilter.detect_pii p).isEmpty
          || PromptFilter.high_risk_keywords.any (fun k => subStr k (lowerStr p))
          || PromptFilter.medium_risk_keywords.any (fun k => subStr k (lowerStr p)) then
        "medium"
      else "low" := by
  have hh : (!((PromptFilter.check_keywords p).1).isEmpty) =
      PromptFilter.high_risk_keywords.any (fun k => subStr k (lowerStr p)) := by
    simp [PromptFilter.check_keywords, filter_isEmpty_eq_not_any]
  have hm2 : (!((PromptFilter.check_keywords p).2).isEmpty) =
      PromptFilter.medium_risk_keywords.any (fun k => subStr k (lowerStr p)) := by
    simp [PromptFilter.check_keywords, filter_isEmpty_eq_not_any]
  conv_lhs => rw [PromptFilter.analyze_prompt]
  rw [← hh, ← hm2]

/-- C2 (code bug): the FastAPI handler `check_prompt` forwards the
*original* prompt to the chosen provider even when the classifier
returns risk `high` — for the SSN prompt the risk is `high`, yet the
response is the provider invoked on the unmodified prompt, violating
"when risk is high no text is ever sent to a model". -/
theorem C2_check_prompt_forwards_original :
    classify_risk "My SSN is 123-45-6789" = "high" ∧
    ∀ (callGroq callGemini : String → String),
      check_prompt callGroq callGemini "My SSN is 123-45-6789" "groq" =
        some ("high", callGroq "My SSN is 123-45-6789") := by
  have h : classify_risk "My SSN is 123-45-6789" = "high" := by decide
  refine ⟨h, fun g m => ?_⟩
  simp [check_prompt, h]

/-- C3 (counterexample): redaction is not idempotent.  On
`"123pin456-78-9012"` the bare-keyword pass replaces `pin`, creating a
word boundary before `456-78-9012`; redacting the result again fires
the SSN detector and changes the text a second time. -/
theorem C3_not_idempotent :
    (PromptRedactor.redact_prompt
        ((PromptRedactor.redact_prompt "123pin456-78-9012").redacted_prompt)).redacted_prompt ≠
      (PromptRedactor.redact_prompt "123pin456-78-9012").redacted_prompt := by decide

/-- C3 (amended): redaction is idempotent on once-redacted text that
contains no further matches — whenever the PII pass and the
secret-assignment pass both leave `redact(p).redactedText` unchanged,
redacting it again returns it unchanged. -/
theorem C3_idempotent_when_no_matches (p : String)
    (h1 : PromptRedactor.redact_pii ((PromptRedactor.redact_prompt p).redacted_prompt) =
      ((PromptRedactor.redact_prompt p).redacted_prompt, []))
    (h2 : PromptRedactor.redact_secret_assignments
        ((PromptRedactor.redact_prompt p).redacted_prompt) =
      (PromptRedactor.redact_prompt p).redacted_prompt) :
    (PromptRedactor.redact_prompt
        ((PromptRedactor.redact_prompt p).redacted_prompt)).redacted_prompt =
      (PromptRedactor.redact_prompt p).redacted_prompt := by
  have hstep : (PromptRedactor.redact_prompt
      ((PromptRedactor.redact_prompt p).redacted_prompt)).redacted_prompt =
      (PromptRedactor.redact_keywords (PromptRedactor.redact_secret_assignments
        (PromptRedactor.redact_pii
          ((PromptRedactor.redact_prompt p).redacted_prompt)).1)).1 := rfl
  rw [hstep, h1]
  show (PromptRedactor.redact_keywords (PromptRedactor.redact_secret_assignments
    ((PromptRedactor.redact_prompt p).redacted_prompt))).1 =
    (PromptRedactor.redact_prompt p).redacted_prompt
  rw [h2]
  by_cases hg : PromptRedactor.kwGuard ((PromptRedactor.redact_prompt p).redacted_prompt) = true
  · show (PromptRedactor.kwLoop
        (lowerStr ((PromptRedactor.redact_prompt p).redacted_prompt))
        PromptRedactor.redact_keywords_list
        ((PromptRedactor.redact_prompt p).redacted_prompt) []).1 = _
    rw [kwLoop_guard _ _ _ [] hg]
  · have hgf : PromptRedactor.kwGuard ((PromptRedactor.redact_prompt p).redacted_prompt) = false := by
      cases hgb : PromptRedactor.kwGuard ((PromptRedactor.redact_prompt p).redacted_prompt)
      · rfl
      · exact absurd hgb hg
    have hr : (PromptRedactor.redact_prompt p).redacted_prompt =
        (PromptRedactor.kwLoop
          (lowerStr (PromptRedactor.redact_secret_assignments (PromptRedactor.redact_pii p).1))
          PromptRedactor.redact_keywords_list
          (PromptRedactor.redact_secret_assignments (PromptRedactor.redact_pii p).1) []).1 := rfl
    obtain ⟨hEq, hNo⟩ := kwLoop_noguard
      (PromptRedactor.redact_secret_assignments (PromptRedactor.redact_pii p).1)
      PromptRedactor.redact_keywords_list kwlist_ok [] (by rw [← hr]; exact hgf)
    have hr2 : (PromptRedactor.redact_prompt p).redacted_prompt =
        PromptRedactor.redact_secret_assignments (PromptRedactor.redact_pii p).1 := by
      rw [hr, hEq]
    rw [hr2]
    show (PromptRedactor.kwLoop
      (lowerStr (PromptRedactor.redact_secret_assignments (PromptRedactor.redact_pii p).1))
      PromptRedactor.redact_keywords_list
      (PromptRedactor.redact_secret_assignments (PromptRedactor.redact_pii p).1) []).1 = _
    rw [kwLoop_skipAll _ _ _ [] hNo]

/-- C3 witness: redacting `"cvv=1"` yields a text with no further
matches, on which the amended idempotence theorem applies. -/
theorem C3_idempotent_witness :
    (PromptRedactor.redact_prompt
        ((PromptRedactor.redact_prompt "cvv=1").redacted_prompt)).redacted_prompt =
      (PromptRedactor.redact_prompt "cvv=1").redacted_prompt :=
  C3_idempotent_when_no_matches "cvv=1" (by decide) (by decide)

/-- C4 (counterexample): redaction coverage does not match
classification.  For `"My SSN is 123-45-6789"` the classifier's
findings contain detector `ssn`, but the secret-assignment pass
consumes the freshly planted `[REDACTED_SSN]` placeholder (as the value
assigned to the keyword `ssn`), so the final redacted text carries no
`[REDACTED_SSN]` marker. -/
theorem C4_coverage_fails :
    (PromptFilter.detect_pii "My SSN is 123-45-6789").map Prod.fst = ["ssn"] ∧
    subStr (PromptRedactor.markerOf "ssn")
      ((PromptRedactor.redact_prompt "My SSN is 123-45-6789").redacted_prompt) = false := by
  decide

/-- C4 (amended): coverage holds when exactly one detector fires and
the later passes do not rewrite the PII-redacted text: if `n` is the
only detector name in `analyze(p).piiFindings` and the
secret-assignment and bare-keyword passes leave the PII-pass output
unchanged, then `[REDACTED_<N>]` occurs in `redact(p).redactedText`. -/
theorem C4_coverage_single_detector (p n : String)
    (hkeys : (PromptFilter.detect_pii p).map Prod.fst = [n])
    (h2 : PromptRedactor.redact_secret_assignments (PromptRedactor.redact_pii p).1 =
      (PromptRedactor.redact_pii p).1)
    (h3 : PromptRedactor.redact_keywords (PromptRedactor.redact_pii p).1 =
      ((PromptRedactor.redact_pii p).1, [])) :
    subStr (PromptRedactor.markerOf n)
      ((PromptRedactor.redact_prompt p).redacted_prompt) = true := by
  have hk : ((PromptRedactor.redact_pii p).2).map Prod.fst = [n] := by
    have h := piiAux_keys p PromptRedactor.redaction_patterns p []
    show ((PromptRedactor.piiAux p PromptRedactor.redaction_patterns p []).2).map Prod.fst = [n]
    rw [h]
    simpa using hkeys
  have hmark := piiAux_single_marker p n PromptRedactor.redaction_patterns hk
  have hfinal : (PromptRedactor.redact_prompt p).redacted_prompt =
      (PromptRedactor.redact_keywords (PromptRedactor.redact_secret_assignments
        (PromptRedactor.redact_pii p).1)).1 := rfl
  rw [hfinal, h2, h3]
  exact hmark

/-- C4 witness: on `"a@b.co"` only the e-mail detector fires and the
later passes change nothing, so the marker survives to the output. -/
theorem C4_coverage_witness :
    subStr (PromptRedactor.markerOf "email")
      ((PromptRedactor.redact_prompt "a@b.co").redacted_prompt) = true :=
  C4_coverage_single_detector "a@b.co" "email" (by decide) (by decide) (by decide)

/-- C5 (counterexample): the three-way count invariant fails.  On
`"password is hunter2"` the secret-assignment pass rewrites the text
but is not counted: `totalRedactions = 0` (and `wasRedacted = false`)
while the redacted text differs from the prompt. -/
theorem C5_count_invariant_fails :
    (PromptRedactor.redact_prompt "password is hunter2").total_redactions = 0 ∧
    (PromptRedactor.redact_prompt "password is hunter2").redacted_prompt ≠
      "password is hunter2" := by decide

/-- C5 (amended): `totalRedactions == 0` and `wasRedacted == false` are
equivalent for every prompt, but they only entail that the redacted
text equals the secret-assignment pass applied to the prompt — that
pass can rewrite the text without being counted. -/
theorem C5_count_invariant_amended (p : String) :
    ((PromptRedactor.redact_prompt p).total_redactions = 0 ↔
      (PromptRedactor.redact_prompt p).was_redacted = false) ∧
    ((PromptRedactor.redact_prompt p).total_redactions = 0 →
      (PromptRedactor.redact_prompt p).redacted_prompt =
        PromptRedactor.redact_secret_assignments p) := by
  constructor
  · have hw : (PromptRedactor.redact_prompt p).was_redacted =
        decide (0 < (PromptRedactor.redact_prompt p).total_redactions) := rfl
    rw [hw]
    simp
  · intro h0
    have h0' : (((PromptRedactor.redact_pii p).2).map (fun e => e.2.length)).sum +
        (PromptRedactor.redact_keywords (PromptRedactor.redact_secret_assignments
          (PromptRedactor.redact_pii p).1)).2.length = 0 := h0
    have hmap : (PromptRedactor.redact_pii p).2 = [] := by
      cases hm : (PromptRedactor.redact_pii p).2 with
      | nil => rfl
      | cons e rest =>
        have he : e ∈ (PromptRedactor.redact_pii p).2 := by rw [hm]; simp
        have hne : e.2 ≠ [] := by
          rcases piiAux_entries p PromptRedactor.redaction_patterns p [] e he with h | h
          · simp at h
          · exact h
        rw [hm, List.map_cons, List.sum_cons] at h0'
        exact absurd (List.length_eq_zero.mp (by omega)) hne
    have hk : (PromptRedactor.redact_keywords (PromptRedactor.redact_secret_assignments
        (PromptRedactor.redact_pii p).1)).2 = [] := by
      apply List.length_eq_zero.mp
      omega
    have hpii1 : (PromptRedactor.redact_pii p).1 = p :=
      piiAux_acc_fixed p PromptRedactor.redaction_patterns p [] hmap
    have hfinal : (PromptRedactor.redact_prompt p).redacted_prompt =
        (PromptRedactor.redact_keywords (PromptRedactor.redact_secret_assignments
          (PromptRedactor.redact_pii p).1)).1 := rfl
    rw [hfinal, hpii1]
    rw [hpii1] at hk
    exact kwLoop_acc_fixed _ _ _ [] hk

/-- C5 witness: the amended equivalence and entailment at the
counterexample prompt, whose uncounted rewrite is exactly the
secret-assignment pass. -/
theorem C5_count_invariant_witness :
    ((PromptRedactor.redact_prompt "password is hunter2").total_redactions = 0 ↔
      (PromptRedactor.redact_prompt "password is hunter2").was_redacted = false) ∧
    (PromptRedactor.redact_prompt "password is hunter2").redacted_prompt =
      PromptRedactor.redact_secret_assignments "password is hunter2" :=
  ⟨(C5_count_invariant_amended "password is hunter2").1,
   (C5_count_invariant_amended "password is hunter2").2 (by decide)⟩

/-- C6 (code bug): the JSON audit-log append swallows storage failures.
Both branches of `_log_to_json` return success to the caller, and on a
failing store the entry is silently lost — the claim (and the spec)
require the failure to propagate. -/
theorem C6_log_append_swallows_failure :
    (∀ (st : JsonStore) (entry : String), (logToJson st entry).2 = Except.ok ()) ∧
    logToJson ⟨["kept"], true⟩ "lost" = (⟨["kept"], true⟩, Except.ok ()) := by
  constructor
  · intro st entry
    by_cases h : st.failing <;> simp [logToJson, h]
  · rfl

/-- C7: `decideBlock` blocks exactly at risk `high` (via
`shouldBlock = (riskLevel == "high")`), answers the fixed no-detection
reason when not blocking, and otherwise joins the fired PII detector
names and fired high-risk keywords with "; ". -/
theorem C7_decide_block_rule (p : String) :
    (PromptFilter.should_block_prompt p).1 = (PromptFilter.analyze_prompt p).should_block ∧
    (PromptFilter.analyze_prompt p).should_block =
      ((PromptFilter.analyze_prompt p).risk_level == "high") ∧
    (PromptFilter.should_block_prompt p).2 =
      (if (PromptFilter.analyze_prompt p).should_block then
        String.intercalate "; "
          ((if !(PromptFilter.analyze_prompt p).pii_detected.isEmpty then
              ["Detected PII: " ++ String.intercalate ", "
                ((PromptFilter.analyze_prompt p).pii_detected.map fun e => e.1)]
            else []) ++
           (if !(PromptFilter.analyze_prompt p).keywords_high.isEmpty then
              ["High-risk keywords: " ++
                String.intercalate ", " (PromptFilter.analyze_prompt p).keywords_high]
            else []))
       else "No high-risk content detected") := by
  refine ⟨?_, rfl, ?_⟩
  · by_cases h : (PromptFilter.analyze_prompt p).should_block <;>
      simp [PromptFilter.should_block_prompt, h]
  · by_cases h : (PromptFilter.analyze_prompt p).should_block <;>
      simp [PromptFilter.should_block_prompt, h]

/-- C8: the end-to-end scenario `"My password is hunter2"` — risk is
`medium`, the redacted text contains `[REDACTED_KEYWORD]` and
`[REDACTED_SECRET]`, and `hunter2` is absent from it. -/
theorem C8_password_scenario :
    classify_risk "My password is hunter2" = "medium" ∧
    subStr "[REDACTED_KEYWORD]"
      ((PromptRedactor.redact_prompt "My password is hunter2").redacted_prompt) = true ∧
    subStr "[REDACTED_SECRET]"
      ((PromptRedactor.redact_prompt "My password is hunter2").redacted_prompt) = true ∧
    subStr "hunter2"
      ((PromptRedactor.redact_prompt "My password is hunter2").redacted_prompt) = false := by
  decide

/-- C9: Classifier and Redactor share the identical, identically
ordered detector table, and on every prompt the detector names of
`analyze(p).piiFindings` equal those of `redact(p).piiRedactions`, in
order. -/
theorem C9_detector_sets_agree (p : String) :
    PromptFilter.patterns = PromptRedactor.redaction_patterns ∧
    (PromptFilter.detect_pii p).map Prod.fst =
      ((PromptRedactor.redact_pii p).2).map Prod.fst := by
  refine ⟨rfl, ?_⟩
  have h := piiAux_keys p PromptRedactor.redaction_patterns p []
  show _ = ((PromptRedactor.piiAux p PromptRedactor.redaction_patterns p []).2).map Prod.fst
  rw [h]
  rfl

/-- C10: the bare-keyword pass records and replaces at most one
distinct keyword per call (the per-keyword guard turns true as soon as
the first replacement plants `[REDACTED_KEYWORD]`), and replaces
nothing at all when the input already contains `[REDACTED_KEYWORD]` or
`[REDACTED_SECRET]`. -/
theorem C10_keyword_pass_at_most_one (t : String) :
    (PromptRedactor.redact_keywords t).2.length ≤ 1 ∧
    (PromptRedactor.kwGuard t = true →
      PromptRedactor.redact_keywords t = (t, [])) := by
  constructor
  · have h := kwLoop_len t PromptRedactor.redact_keywords_list kwlist_ok []
    simpa [PromptRedactor.redact_keywords] using h
  · intro hg
    exact kwLoop_guard (lowerStr t) PromptRedactor.redact_keywords_list t [] hg

/-- C10 witness: on an input that already carries the keyword marker,
the pass is the identity and records nothing. -/
theorem C10_keyword_pass_witness :
    (PromptRedactor.redact_keywords "[REDACTED_KEYWORD] pin").2.length ≤ 1 ∧
    PromptRedactor.redact_keywords "[REDACTED_KEYWORD] pin" =
      ("[REDACTED_KEYWORD] pin", []) :=
  ⟨(C10_keyword_pass_at_most_one "[REDACTED_KEYWORD] pin").1,
   (C10_keyword_pass_at_most_one "[REDACTED_KEYWORD] pin").2 (by decide)⟩

end Firewall
